import Mathlib

/-
Shallow embedding of the UniST Uniswap-v3 backtesting core:
`code/univ3api/simulation.py` (PositionInstance, PoolSimiulation) and
`code/btceth/univ3api/utils.py` (PositionUtil, PriceConverter).

Modelling conventions:
* Python floats are modelled as exact rationals (`ℚ`); `PriceConverter`,
  which calls the transcendental `math.log`, is modelled over `ℝ`.
* Python `int(x)` truncates toward zero: `pyInt` / `pyIntR`.
* A raised exception (`AssertionError`, `ValueError`, `ZeroDivisionError`,
  `KeyError`) is modelled as `none` or an explicit failure outcome.
* `math.inf` inside `cal_liquidity_sqrt` is the `none` of an inner
  `Option ℤ`; a `ZeroDivisionError` from float division is the `none`
  produced by `pydiv`.
* Python dicts (`positions`, `valid_positions`) keep insertion order and
  have unique keys; they are modelled as an association list of
  `(token_id, PositionInstance)` and a list of token ids.
-/

/-- Python `int(x)` applied to a float: truncation toward zero. -/
def pyInt (q : ℚ) : ℤ := if q < 0 then -⌊-q⌋ else ⌊q⌋

/-- Python float division; a zero divisor raises `ZeroDivisionError`. -/
def pydiv (a b : ℚ) : Option ℚ := if b = 0 then none else some (a / b)

/-- The comparison `l0 < l1` of `cal_liquidity_sqrt`, where `none` stands
for `math.inf` (`inf < x` is false, `x < inf` is true for finite `x`). -/
def infLt : Option ℤ → Option ℤ → Bool
  | none, _ => false
  | some _, none => true
  | some a, some b => decide (a < b)

/-- Source: `PositionUtil.cal_liquidity_sqrt(sqrt_price, sqrt_lower, sqrt_upper, amt0, amt1)`
(utils.py:289-353).  Region A (`sqrt_price ≤ sqrt_lower`) requires `amt0`
truthy; region B (`sqrt_lower < sqrt_price ≤ sqrt_upper`) takes the min of
the two liquidity candidates, an absent side counting as `math.inf`, and
recomputes the non-binding amount from the chosen liquidity; region C
(`sqrt_upper < sqrt_price`) requires `amt1` truthy. -/
def PositionUtil.cal_liquidity_sqrt (sqrt_price sqrt_lower sqrt_upper : ℚ)
    (amt0 amt1 : ℤ) : Option (ℤ × ℤ × ℤ) :=
  if sqrt_price ≤ sqrt_lower then
    if amt0 = 0 then none else
    match pydiv (sqrt_upper * sqrt_lower) (sqrt_upper - sqrt_lower) with
    | none => none
    | some q => some (pyInt ((amt0 : ℚ) * q), amt0, 0)
  else if sqrt_price ≤ sqrt_upper then
    if amt0 = 0 ∧ amt1 = 0 then none else
    match (if amt0 = 0 then some none else
        (pydiv ((amt0 : ℚ) * (sqrt_upper * sqrt_price)) (sqrt_upper - sqrt_price)).map
          (fun q => some (pyInt q))) with
    | none => none
    | some l0 =>
      match (if amt1 = 0 then some none else
          (pydiv (amt1 : ℚ) (sqrt_price - sqrt_lower)).map
            (fun q => some (pyInt q))) with
      | none => none
      | some l1 =>
        if infLt l0 l1 then
          some (l0.getD 0, amt0, pyInt ((l0.getD 0 : ℚ) * (sqrt_price - sqrt_lower)))
        else
          match pydiv ((l1.getD 0 : ℚ) * (sqrt_upper - sqrt_price))
              (sqrt_upper * sqrt_price) with
          | none => none
          | some q => some (l1.getD 0, pyInt q, amt1)
  else
    if amt1 = 0 then none else
    match pydiv (amt1 : ℚ) (sqrt_upper - sqrt_lower) with
    | none => none
    | some q => some (pyInt q, 0, amt1)

theorem pyInt_of_nonneg {q : ℚ} (h : 0 ≤ q) : pyInt q = ⌊q⌋ := by
  rw [pyInt, if_neg (not_lt.2 h)]

/-- The in-range liquidity candidate computed from `amt0`
(`amt0 * (sqrt_upper * sqrt_price) / (sqrt_upper - sqrt_price)`, truncated). -/
def regionBL0 (sp su : ℚ) (amt0 : ℤ) : ℤ := ⌊(amt0 : ℚ) * (su * sp) / (su - sp)⌋

/-- The in-range liquidity candidate computed from `amt1`
(`amt1 / (sqrt_price - sqrt_lower)`, truncated). -/
def regionBL1 (sp sl : ℚ) (amt1 : ℤ) : ℤ := ⌊(amt1 : ℚ) / (sp - sl)⌋

/-- C6: outside the in-range region, `cal_liquidity_sqrt` fails exactly when
the region-required amount is zero; otherwise it returns the closed-form
liquidity and passes the supplied amount through unchanged with a zero on
the other side.  The source function is a `@staticmethod` of `PositionUtil`
touching no object or global state, modelled here as a pure function. -/
theorem cal_liquidity_sqrt_outside_range
    (sp sl su : ℚ) (amt0 amt1 : ℤ) (hl : 0 < sl) (hls : sl < su) :
    (sp ≤ sl →
      ((PositionUtil.cal_liquidity_sqrt sp sl su amt0 amt1 = none ↔ amt0 = 0) ∧
       (0 < amt0 → PositionUtil.cal_liquidity_sqrt sp sl su amt0 amt1 =
          some (⌊(amt0 : ℚ) * (su * sl / (su - sl))⌋, amt0, 0)))) ∧
    (su < sp →
      ((PositionUtil.cal_liquidity_sqrt sp sl su amt0 amt1 = none ↔ amt1 = 0) ∧
       (0 < amt1 → PositionUtil.cal_liquidity_sqrt sp sl su amt0 amt1 =
          some (⌊(amt1 : ℚ) / (su - sl)⌋, 0, amt1)))) := by
  have hsub : su - sl ≠ 0 := sub_ne_zero.2 hls.ne'
  constructor
  · intro hsp
    rw [PositionUtil.cal_liquidity_sqrt, if_pos hsp]
    constructor
    · by_cases h0 : amt0 = 0
      · simp [h0]
      · simp [h0, pydiv, hsub]
    · intro hpos
      rw [if_neg (by exact_mod_cast hpos.ne')]
      rw [pydiv, if_neg hsub]
      have hq : (0 : ℚ) ≤ (amt0 : ℚ) * (su * sl / (su - sl)) := by
        apply mul_nonneg
        · exact_mod_cast hpos.le
        · apply div_nonneg
          · exact (mul_pos (hl.trans hls) hl).le
          · exact (sub_pos.2 hls).le
      simp [pyInt_of_nonneg hq]
  · intro hsp
    have h1 : ¬ sp ≤ sl := not_le.2 (hls.trans hsp)
    have h2 : ¬ sp ≤ su := not_le.2 hsp
    rw [PositionUtil.cal_liquidity_sqrt, if_neg h1, if_neg h2]
    constructor
    · by_cases h0 : amt1 = 0
      · simp [h0]
      · simp [h0, pydiv, hsub]
    · intro hpos
      rw [if_neg (by exact_mod_cast hpos.ne')]
      rw [pydiv, if_neg hsub]
      have hq : (0 : ℚ) ≤ (amt1 : ℚ) / (su - sl) := by
        apply div_nonneg
        · exact_mod_cast hpos.le
        · exact (sub_pos.2 hls).le
      simp [pyInt_of_nonneg hq]

/-- C6 witness: region A at `sqrt_price = 1 ≤ sqrt_lower = 2 < sqrt_upper = 3`
with `amt0 = 7`, and region C at `sqrt_price = 4`. -/
theorem cal_liquidity_sqrt_outside_range_w :
    (0 : ℚ) < 2 ∧ (2 : ℚ) < 3 ∧
      PositionUtil.cal_liquidity_sqrt 1 2 3 7 0 = some (⌊(7 : ℚ) * (3 * 2 / (3 - 2))⌋, 7, 0) ∧
      PositionUtil.cal_liquidity_sqrt 4 2 3 0 7 = some (⌊(7 : ℚ) / (3 - 2)⌋, 0, 7) :=
  ⟨by norm_num, by norm_num,
    ((cal_liquidity_sqrt_outside_range 1 2 3 7 0 (by norm_num) (by norm_num)).1
      (by norm_num)).2 (by norm_num),
    ((cal_liquidity_sqrt_outside_range 4 2 3 0 7 (by norm_num) (by norm_num)).2
      (by norm_num)).2 (by norm_num)⟩

/-- C1 counterexample: at the claimed boundary `price = upper` with a nonzero
`amt0`, the candidate computation divides `amt0 * (√upper*√price)` by
`√upper − √price = 0` and raises `ZeroDivisionError` — no liquidity is
returned at all, contradicting the claim that every call with
`lower < price ≤ upper` and a nonzero amount returns the min candidate. -/
theorem cal_liquidity_sqrt_at_upper_raises :
    PositionUtil.cal_liquidity_sqrt 2 1 2 5 7 = none := by
  norm_num [PositionUtil.cal_liquidity_sqrt, pydiv, infLt, pyInt]

/-- C1 (amended): in range with `price < upper` whenever `amt0` is supplied
(at `price = upper` with `amt0 ≠ 0` the call raises `ZeroDivisionError`),
the returned liquidity is the minimum of the truncated candidates, an
absent side counting as infinite; the binding side's returned amount is the
caller's input and the non-binding side's amount is recomputed from the
chosen liquidity and truncated. -/
theorem cal_liquidity_sqrt_in_range_min
    (sp sl su : ℚ) (amt0 amt1 : ℤ)
    (hl : 0 < sl) (h1 : sl < sp) (h2 : sp ≤ su)
    (ha0 : 0 ≤ amt0) (ha1 : 0 ≤ amt1)
    (hlt : amt0 ≠ 0 → sp < su) :
    (amt0 ≠ 0 → amt1 = 0 →
      PositionUtil.cal_liquidity_sqrt sp sl su amt0 amt1 =
        some (regionBL0 sp su amt0, amt0,
              ⌊(regionBL0 sp su amt0 : ℚ) * (sp - sl)⌋)) ∧
    (amt0 = 0 → amt1 ≠ 0 →
      PositionUtil.cal_liquidity_sqrt sp sl su amt0 amt1 =
        some (regionBL1 sp sl amt1,
              ⌊(regionBL1 sp sl amt1 : ℚ) * (su - sp) / (su * sp)⌋, amt1)) ∧
    (amt0 ≠ 0 → amt1 ≠ 0 →
      PositionUtil.cal_liquidity_sqrt sp sl su amt0 amt1 =
        some (min (regionBL0 sp su amt0) (regionBL1 sp sl amt1),
              if regionBL0 sp su amt0 < regionBL1 sp sl amt1 then amt0
              else ⌊(regionBL1 sp sl amt1 : ℚ) * (su - sp) / (su * sp)⌋,
              if regionBL0 sp su amt0 < regionBL1 sp sl amt1 then
                ⌊(regionBL0 sp su amt0 : ℚ) * (sp - sl)⌋
              else amt1)) := by
  have hbr : ¬ sp ≤ sl := not_le.2 h1
  have hsp_pos : 0 < sp := hl.trans h1
  have hsu_pos : 0 < su := hsp_pos.trans_le h2
  have hplc : sp - sl ≠ 0 := sub_ne_zero.2 h1.ne'
  have hpl_nonneg : (0 : ℚ) ≤ sp - sl := (sub_pos.2 h1).le
  have hmul : su * sp ≠ 0 := (mul_pos hsu_pos hsp_pos).ne'
  have hq1 : (0 : ℚ) ≤ (amt1 : ℚ) / (sp - sl) :=
    div_nonneg (by exact_mod_cast ha1) hpl_nonneg
  have hfl1 : (0 : ℚ) ≤ (⌊(amt1 : ℚ) / (sp - sl)⌋ : ℚ) := by
    exact_mod_cast Int.floor_nonneg.2 hq1
  have hq1' : (0 : ℚ) ≤ (⌊(amt1 : ℚ) / (sp - sl)⌋ : ℚ) * (su - sp) / (su * sp) :=
    div_nonneg (mul_nonneg hfl1 (sub_nonneg.2 h2)) (mul_pos hsu_pos hsp_pos).le
  refine ⟨?_, ?_, ?_⟩
  · intro h0 h1'
    have hup : su - sp ≠ 0 := sub_ne_zero.2 (hlt h0).ne'
    have hq0 : (0 : ℚ) ≤ (amt0 : ℚ) * (su * sp) / (su - sp) :=
      div_nonneg (mul_nonneg (by exact_mod_cast ha0) (mul_pos hsu_pos hsp_pos).le)
        (sub_pos.2 (hlt h0)).le
    have hfl0 : (0 : ℚ) ≤ (⌊(amt0 : ℚ) * (su * sp) / (su - sp)⌋ : ℚ) := by
      exact_mod_cast Int.floor_nonneg.2 hq0
    rw [PositionUtil.cal_liquidity_sqrt, if_neg hbr, if_pos h2]
    rw [if_neg (by simp [h0] : ¬ (amt0 = 0 ∧ amt1 = 0))]
    rw [if_neg h0, if_pos h1']
    rw [pydiv, if_neg hup]
    simp only [Option.map_some', infLt, Option.getD_some]
    rw [pyInt_of_nonneg hq0, pyInt_of_nonneg (mul_nonneg hfl0 hpl_nonneg)]
    simp [regionBL0]
  · intro h0 h1'
    rw [PositionUtil.cal_liquidity_sqrt, if_neg hbr, if_pos h2]
    rw [if_neg (by simp [h1'] : ¬ (amt0 = 0 ∧ amt1 = 0))]
    rw [if_pos h0, if_neg h1']
    rw [pydiv, if_neg hplc]
    simp only [Option.map_some', infLt, Option.getD_some]
    rw [pydiv, if_neg hmul]
    rw [pyInt_of_nonneg hq1]
    simp [regionBL1, pyInt_of_nonneg hq1']
  · intro h0 h1'
    have hup : su - sp ≠ 0 := sub_ne_zero.2 (hlt h0).ne'
    have hq0 : (0 : ℚ) ≤ (amt0 : ℚ) * (su * sp) / (su - sp) :=
      div_nonneg (mul_nonneg (by exact_mod_cast ha0) (mul_pos hsu_pos hsp_pos).le)
        (sub_pos.2 (hlt h0)).le
    have hfl0 : (0 : ℚ) ≤ (⌊(amt0 : ℚ) * (su * sp) / (su - sp)⌋ : ℚ) := by
      exact_mod_cast Int.floor_nonneg.2 hq0
    rw [PositionUtil.cal_liquidity_sqrt, if_neg hbr, if_pos h2]
    rw [if_neg (by simp [h0] : ¬ (amt0 = 0 ∧ amt1 = 0))]
    rw [if_neg h0, if_neg h1']
    rw [pydiv, if_neg hup, pydiv, if_neg hplc]
    simp only [Option.map_some', infLt, Option.getD_some]
    rw [pyInt_of_nonneg hq0, pyInt_of_nonneg hq1]
    by_cases hcmp : ⌊(amt0 : ℚ) * (su * sp) / (su - sp)⌋ < ⌊(amt1 : ℚ) / (sp - sl)⌋
    · rw [if_pos (by simpa using hcmp)]
      rw [pyInt_of_nonneg (mul_nonneg hfl0 hpl_nonneg)]
      simp [regionBL0, regionBL1, min_eq_left hcmp.le, if_pos hcmp]
    · rw [if_neg (by simpa using hcmp)]
      rw [pydiv, if_neg hmul]
      simp [regionBL0, regionBL1, min_eq_right (not_lt.1 hcmp), if_neg hcmp,
        pyInt_of_nonneg hq1']

/-- C1 witness: in-range sizing at `√price = 3/2`, `√lower = 1`, `√upper = 2`
with both amounts supplied. -/
theorem cal_liquidity_sqrt_in_range_min_w :
    PositionUtil.cal_liquidity_sqrt (3/2) 1 2 100 100 =
      some (min (regionBL0 (3/2) 2 100) (regionBL1 (3/2) 1 100),
            if regionBL0 (3/2) 2 100 < regionBL1 (3/2) 1 100 then 100
            else ⌊(regionBL1 (3/2) 1 100 : ℚ) * (2 - 3/2) / (2 * (3/2))⌋,
            if regionBL0 (3/2) 2 100 < regionBL1 (3/2) 1 100 then
              ⌊(regionBL0 (3/2) 2 100 : ℚ) * (3/2 - 1)⌋
            else 100) :=
  (cal_liquidity_sqrt_in_range_min (3/2) 1 2 100 100 (by norm_num) (by norm_num)
    (by norm_num) (by norm_num) (by norm_num) (fun _ => by norm_num)).2.2
    (by norm_num) (by norm_num)

/-! ## Position state (`PositionInstance`, simulation.py:33-98, on top of
`PositionUtil.__init__`/`update_liquidity`/`amount0_psqrt`/`amount1_psqrt`,
utils.py:46-219) -/

/-- Source: `LiquidityLog` (simulation.py:14). -/
structure LiquidityLog where
  block : ℤ
  timestamp : ℤ
  liquidity : ℚ
deriving DecidableEq, Repr

/-- Source: `PositionBalanceLog` (simulation.py:15). -/
structure PositionBalanceLog where
  block : ℤ
  timestamp : ℤ
  amount0 : ℤ
  amount1 : ℤ
  fee0 : ℤ
  fee1 : ℤ
deriving DecidableEq, Repr

/-- Source: `WalletLog` (simulation.py:16). -/
structure WalletLog where
  block : ℤ
  timestamp : ℤ
  amount0 : ℤ
  amount1 : ℤ
deriving DecidableEq, Repr

/-- Mutable state of a `PositionInstance`.  The fields mirror the Python
attributes; `decimals`, `factor*` and the `cex_price_*` bounds (derived
display-only data used by reporting) are omitted.  `liquidity` is a float
in Python (`pct` scaling can make it non-integral), hence `ℚ`. -/
structure PositionInstance where
  liquidity : ℚ
  tick_lower : ℤ
  tick_upper : ℤ
  low_price_sqrt : ℚ
  low_price_sqrt_r : ℚ
  high_price_sqrt : ℚ
  high_price_sqrt_r : ℚ
  _amount0_edge : ℤ
  _amount1_edge : ℤ
  fee_rate : ℤ
  fee0 : ℤ
  fee1 : ℤ
  token_id : ℕ
  balance : List PositionBalanceLog
  history : List LiquidityLog
deriving DecidableEq, Repr

/-- Source: `PositionUtil.update_liquidity` (utils.py:136-139). -/
def PositionInstance.update_liquidity (pos : PositionInstance) (l : ℚ) :
    PositionInstance :=
  { pos with
    liquidity := l
    _amount0_edge := pyInt (l * (pos.low_price_sqrt_r - pos.high_price_sqrt_r))
    _amount1_edge := pyInt (l * (pos.high_price_sqrt - pos.low_price_sqrt)) }

/-- Source: `PositionUtil.amount0_psqrt` (utils.py:182-199). -/
def PositionInstance.amount0_psqrt (pos : PositionInstance) (psqrt : ℚ) : ℤ :=
  if psqrt ≤ pos.low_price_sqrt then pos._amount0_edge
  else if psqrt < pos.high_price_sqrt then
    pyInt (pos.liquidity * (1 / psqrt - pos.high_price_sqrt_r))
  else 0

/-- Source: `PositionUtil.amount1_psqrt` (utils.py:201-219). -/
def PositionInstance.amount1_psqrt (pos : PositionInstance) (psqrt : ℚ) : ℤ :=
  if psqrt ≤ pos.low_price_sqrt then 0
  else if psqrt < pos.high_price_sqrt then
    pyInt (pos.liquidity * (psqrt - pos.low_price_sqrt))
  else pos._amount1_edge

/-- Source: `1.0001 ** t` for an integer exponent; `PositionInstance` ticks are
multiples of 60, so the half-tick exponents `tick/2` occurring in the
source are integral and exact. -/
def pow10001 (t : ℤ) : ℚ := (10001 / 10000 : ℚ) ^ t

/-- Source: `PositionInstance.__init__` / `PositionUtil.__init__`
(simulation.py:35-46, utils.py:46-93): validates the tick range (three
`assert`s) and precomputes the sqrt bounds, reciprocals and edge amounts
(via `update_liquidity`). -/
def PositionInstance.mkNew (liquidity : ℚ) (tick_lower tick_upper : ℤ)
    (fee_rate : ℤ) (token_id : ℕ) : Option PositionInstance :=
  if tick_lower < tick_upper ∧ tick_lower % 60 = 0 ∧ tick_upper % 60 = 0 then
    let lps := pow10001 (tick_lower / 2)
    let hps := pow10001 (tick_upper / 2)
    some (PositionInstance.update_liquidity
      { liquidity := liquidity, tick_lower := tick_lower, tick_upper := tick_upper,
        low_price_sqrt := lps, low_price_sqrt_r := 1 / lps,
        high_price_sqrt := hps, high_price_sqrt_r := 1 / hps,
        _amount0_edge := 0, _amount1_edge := 0,
        fee_rate := fee_rate, fee0 := 0, fee1 := 0, token_id := token_id,
        balance := [], history := [] } liquidity)
  else none

/-- Source: `PositionInstance.increase_liquidity` (simulation.py:48-54): sizes a
liquidity delta from the supplied amounts, adds it, and returns the delta
plus the owed-amount differences before/after the update. -/
def PositionInstance.increase_liquidity (pos : PositionInstance)
    (sqrt_price : ℚ) (amount0 amount1 : ℤ) :
    Option (PositionInstance × ℤ × ℤ × ℤ) :=
  let amt0 := pos.amount0_psqrt sqrt_price
  let amt1 := pos.amount1_psqrt sqrt_price
  match PositionUtil.cal_liquidity_sqrt sqrt_price pos.low_price_sqrt
      pos.high_price_sqrt amount0 amount1 with
  | none => none
  | some (l, _, _) =>
    let pos' := pos.update_liquidity (pos.liquidity + (l : ℚ))
    some (pos', l, pos'.amount0_psqrt sqrt_price - amt0,
      pos'.amount1_psqrt sqrt_price - amt1)

/-- Source: `PositionInstance.decrease_liquidity` (simulation.py:56-63).
`assert liquidity or pct` fails iff both are falsy (`None`/`0`); a falsy
`liquidity` selects the `pct` branch with its `0 < pct ≤ 1` check.
Returns the new liquidity and the released owed-amount differences. -/
def PositionInstance.decrease_liquidity (pos : PositionInstance)
    (sqrt_price : ℚ) (liquidity : Option ℚ) (pct : ℚ) :
    Option (PositionInstance × ℚ × ℤ × ℤ) :=
  if liquidity.getD 0 = 0 ∧ pct = 0 then none
  else
    match (if liquidity.getD 0 = 0 then
        (if 0 < pct ∧ pct ≤ 1 then some (pos.liquidity * pct) else none)
      else some (liquidity.getD 0)) with
    | none => none
    | some liq =>
      let a0 := pos.amount0_psqrt sqrt_price
      let a1 := pos.amount1_psqrt sqrt_price
      let pos' := pos.update_liquidity (pos.liquidity - liq)
      some (pos', pos'.liquidity, a0 - pos'.amount0_psqrt sqrt_price,
        a1 - pos'.amount1_psqrt sqrt_price)

/-- Source: `PositionInstance.swap` (simulation.py:65-75): accrues pool fees on the
owed-amount delta in the direction of the price move. -/
def PositionInstance.swap (pos : PositionInstance)
    (from_sqrt_price to_sqrt_price : ℚ) : PositionInstance × ℤ × ℤ :=
  if to_sqrt_price > from_sqrt_price then
    let amount1 := pos.amount1_psqrt to_sqrt_price - pos.amount1_psqrt from_sqrt_price
    let fee1 := pyInt ((amount1 * pos.fee_rate : ℤ) / (1000000 : ℚ))
    ({ pos with fee1 := pos.fee1 + fee1 }, 0, fee1)
  else
    let amount0 := pos.amount0_psqrt to_sqrt_price - pos.amount0_psqrt from_sqrt_price
    let fee0 := pyInt ((amount0 * pos.fee_rate : ℤ) / (1000000 : ℚ))
    ({ pos with fee0 := pos.fee0 + fee0 }, fee0, 0)

/-- Source: `PositionInstance.is_active` (simulation.py:77-78): Python truthiness of
`self.liquidity and low ≤ p ≤ high`. -/
def PositionInstance.is_active (pos : PositionInstance) (sqrt_price : ℚ) : Bool :=
  decide (pos.liquidity ≠ 0 ∧ pos.low_price_sqrt ≤ sqrt_price ∧
    sqrt_price ≤ pos.high_price_sqrt)

/-- Source: `PositionInstance.collect` (simulation.py:80-83): drains the fee
counters. -/
def PositionInstance.collect (pos : PositionInstance) :
    PositionInstance × ℤ × ℤ :=
  ({ pos with fee0 := 0, fee1 := 0 }, pos.fee0, pos.fee1)

/-- Source: `PositionInstance.log_history` (simulation.py:85-86). -/
def PositionInstance.log_history (pos : PositionInstance) (block timestamp : ℤ) :
    PositionInstance :=
  { pos with history := pos.history ++ [⟨block, timestamp, pos.liquidity⟩] }

/-- Source: `PositionInstance.log_balance` (simulation.py:88-98). -/
def PositionInstance.log_balance (pos : PositionInstance)
    (block timestamp : ℤ) (sqrt_price : ℚ) (fee0 fee1 : ℤ) : PositionInstance :=
  { pos with balance := pos.balance ++
      [⟨block, timestamp, pos.amount0_psqrt sqrt_price,
        pos.amount1_psqrt sqrt_price, fee0, fee1⟩] }

/-- C10: passing `liquidity = 0` to `Position.decrease_liquidity` behaves
exactly like passing `None` (the Python falsiness test `not liquidity`
conflates the two), so with the default `pct = 1` it removes the entire
liquidity rather than nothing; and `liquidity = None` with `pct = 0` fails
the `assert liquidity or pct`. -/
theorem decrease_liquidity_zero_is_none (pos : PositionInstance) (sp : ℚ) :
    (∀ pct : ℚ, PositionInstance.decrease_liquidity pos sp (some 0) pct =
      PositionInstance.decrease_liquidity pos sp none pct) ∧
    ((PositionInstance.decrease_liquidity pos sp (some 0) 1).map
      (fun r => r.1.liquidity) = some 0) ∧
    PositionInstance.decrease_liquidity pos sp none 0 = none := by
  refine ⟨fun pct => rfl, ?_, ?_⟩
  · simp [PositionInstance.decrease_liquidity, PositionInstance.update_liquidity]
  · simp [PositionInstance.decrease_liquidity]

/-! ## Simulator state (`PoolSimiulation`, simulation.py:207-495) -/

/-- Lookup in the insertion-ordered association list modelling the Python
dict `positions` (keys are unique by construction: `next_token_id` is a
fresh counter). -/
def alookup : List (ℕ × PositionInstance) → ℕ → Option PositionInstance
  | [], _ => none
  | p :: rest, key => if p.1 = key then some p.2 else alookup rest key

/-- In-place value update at an existing key of the dict model
(`self.positions[token_id] = ...` for a key already present). -/
def aupdate (l : List (ℕ × PositionInstance)) (k : ℕ) (v : PositionInstance) :
    List (ℕ × PositionInstance) :=
  l.map (fun p => if p.1 = k then (k, v) else p)

/-- A pool swap event record as consumed by `init`/`on_swap`
(keys `sqrtPriceX96`, `tick`, `blockNumber`, `liquidity`, `timestamp`). -/
structure SwapEvent where
  sqrtPriceX96 : ℤ
  tick : ℤ
  blockNumber : ℤ
  liquidity : ℚ
  timestamp : ℤ
deriving DecidableEq, Repr

/-- State of `PoolSimiulation` (sic, simulation.py:207-240).  `fee` holds
`self.fee.value` (the integer fee tier).  `positions` is the full registry,
`valid_positions` the active subset, both in dict insertion order. -/
structure PoolSimiulation where
  decimal0 : ℤ
  decimal1 : ℤ
  amount0 : ℤ
  amount1 : ℤ
  positions : List (ℕ × PositionInstance)
  valid_positions : List ℕ
  _next_token_id : ℕ
  fee : ℤ
  tick : ℤ
  sqrt_price_x96 : ℤ
  sqrt_price : ℚ
  block_number : ℤ
  timestamp : ℤ
  L : ℚ
  wallet_logs : List WalletLog
deriving DecidableEq, Repr

/-- Source: `PoolSimiulation.__init__` (simulation.py:211-240). -/
def PoolSimiulation.mkNew (amount0 amount1 decimal0 decimal1 fee : ℤ) :
    PoolSimiulation :=
  { decimal0 := decimal0, decimal1 := decimal1, amount0 := amount0,
    amount1 := amount1, positions := [], valid_positions := [],
    _next_token_id := 0, fee := fee, tick := 0, sqrt_price_x96 := 0,
    sqrt_price := 0, block_number := 0, timestamp := 0, L := 0,
    wallet_logs := [] }

/-- Source: `PoolSimiulation.record_wallet` (simulation.py:242-243). -/
def PoolSimiulation.record_wallet (sim : PoolSimiulation) : PoolSimiulation :=
  { sim with wallet_logs := sim.wallet_logs ++
      [⟨sim.block_number, sim.timestamp, sim.amount0, sim.amount1⟩] }

/-- Source: `PoolSimiulation.init` (simulation.py:335-346): seeds the pool clock
from the first swap event (`sqrt_price = sqrtPriceX96 / 2^96`). -/
def PoolSimiulation.init (sim : PoolSimiulation) (ev : SwapEvent) :
    PoolSimiulation :=
  { sim with
    sqrt_price_x96 := ev.sqrtPriceX96, tick := ev.tick,
    block_number := ev.blockNumber,
    sqrt_price := (ev.sqrtPriceX96 : ℚ) / (2 : ℚ) ^ (96 : ℕ),
    timestamp := ev.timestamp, L := ev.liquidity }

/-- Source: `PoolSimiulation.mint` (simulation.py:250-280): aligns the ticks to the
60 spacing, asserts the wallet holds the *requested* amounts, sizes the
liquidity at the current pool sqrt price, constructs the position
(incrementing `next_token_id` first, as the Python property does), then
debits the wallet by the *recomputed* owed amounts, registers the position
in both maps and logs.  Returns `(position, amt0, amt1)`. -/
def PoolSimiulation.mint (sim : PoolSimiulation) (lower upper : ℤ)
    (amount0 amount1 : ℤ) : PoolSimiulation × Option (PositionInstance × ℤ × ℤ) :=
  let lower := lower - lower % 60
  let upper := upper - upper % 60
  if sim.amount0 < amount0 ∨ sim.amount1 < amount1 then (sim, none)
  else
    match PositionUtil.cal_liquidity_sqrt sim.sqrt_price (pow10001 (lower / 2))
        (pow10001 (upper / 2)) amount0 amount1 with
    | none => (sim, none)
    | some (l, _, _) =>
      let tid := sim._next_token_id + 1
      let sim0 := { sim with _next_token_id := tid }
      match PositionInstance.mkNew (l : ℚ) lower upper sim.fee tid with
      | none => (sim0, none)
      | some position =>
        let amt0 := position.amount0_psqrt sim.sqrt_price
        let amt1 := position.amount1_psqrt sim.sqrt_price
        let position := (position.log_history sim.block_number
            sim.timestamp).log_balance sim.block_number sim.timestamp
            sim.sqrt_price 0 0
        let sim1 := { sim0 with
          amount0 := sim0.amount0 - amt0, amount1 := sim0.amount1 - amt1,
          positions := sim0.positions ++ [(tid, position)],
          valid_positions := sim0.valid_positions ++ [tid] }
        (sim1.record_wallet, some (position, amt0, amt1))

/-- Source: `PoolSimiulation.increase_liquidity` (simulation.py:282-306): the
position mutation is applied first; if the wallet then lacks the computed
deposit amounts, the mutation is rolled back with
`position.update_liquidity(org_l)` and the exception re-raised. -/
def PoolSimiulation.increase_liquidity (sim : PoolSimiulation) (token_id : ℕ)
    (amount0 amount1 : ℤ) : PoolSimiulation × Option (PositionInstance × ℤ × ℤ) :=
  match alookup sim.positions token_id with
  | none => (sim, none)
  | some position =>
    let org_l := position.liquidity
    match position.increase_liquidity sim.sqrt_price amount0 amount1 with
    | none => (sim, none)
    | some (pos1, _l, amt0, amt1) =>
      if sim.amount0 < amt0 ∨ sim.amount1 < amt1 then
        ({ sim with
            positions := aupdate sim.positions token_id
              (pos1.update_liquidity org_l) }, none)
      else
        let pos2 := (pos1.log_history sim.block_number sim.timestamp).log_balance
          sim.block_number sim.timestamp sim.sqrt_price 0 0
        let vp := if pos1.token_id ∈ sim.valid_positions then sim.valid_positions
          else sim.valid_positions ++ [pos1.token_id]
        let sim1 := { sim with
          amount0 := sim.amount0 - amt0, amount1 := sim.amount1 - amt1,
          positions := aupdate sim.positions token_id pos2,
          valid_positions := vp }
        (sim1.record_wallet, some (pos2, amt0, amt1))

/-- Source: `PoolSimiulation.decrease_liquidity` (simulation.py:309-318): delegates
to the position, credits the wallet with the released amounts, pops the id
from `valid_positions` when the liquidity reached exactly zero (the full
registry keeps the entry), and logs history (only) plus a wallet
snapshot. -/
def PoolSimiulation.decrease_liquidity (sim : PoolSimiulation) (token_id : ℕ)
    (liquidity : Option ℚ) (pct : ℚ) :
    PoolSimiulation × Option (PositionInstance × ℤ × ℤ) :=
  match alookup sim.positions token_id with
  | none => (sim, none)
  | some position =>
    match position.decrease_liquidity sim.sqrt_price liquidity pct with
    | none => (sim, none)
    | some (pos1, _l, amt0, amt1) =>
      let vp := if pos1.liquidity = 0 then
          sim.valid_positions.filter (· ≠ pos1.token_id)
        else sim.valid_positions
      let pos2 := pos1.log_history sim.block_number sim.timestamp
      let sim1 := { sim with
        amount0 := sim.amount0 + amt0, amount1 := sim.amount1 + amt1,
        positions := aupdate sim.positions token_id pos2,
        valid_positions := vp }
      (sim1.record_wallet, some (pos2, amt0, amt1))

/-- Source: `PoolSimiulation.collect` (simulation.py:320-333): drains the position
fees into the wallet and logs a negative-fee balance entry (only) plus a
wallet snapshot. -/
def PoolSimiulation.collect (sim : PoolSimiulation) (token_id : ℕ) :
    PoolSimiulation × Option (ℤ × ℤ) :=
  match alookup sim.positions token_id with
  | none => (sim, none)
  | some position =>
    let r := position.collect
    let pos2 := r.1.log_balance sim.block_number sim.timestamp sim.sqrt_price
      (-r.2.1) (-r.2.2)
    let sim1 := { sim with
      amount0 := sim.amount0 + r.2.1, amount1 := sim.amount1 + r.2.2,
      positions := aupdate sim.positions token_id pos2 }
    (sim1.record_wallet, some (r.2.1, r.2.2))

/-- One iteration of the `for position in self.valid_positions.values()`
loop of `on_swap`: accrue the fee and append a balance log entry.  In
Python the loop iterates over the position objects themselves; here it is
keyed by id through the store (ids in `valid_positions` are registry keys
by construction). -/
def onSwapStep (former newp : ℚ) (block ts : ℤ)
    (store : List (ℕ × PositionInstance)) (tid : ℕ) :
    List (ℕ × PositionInstance) :=
  match alookup store tid with
  | none => store
  | some pos =>
    let r := pos.swap former newp
    aupdate store tid (r.1.log_balance block ts newp r.2.1 r.2.2)

/-- Source: `PoolSimiulation.on_swap` (simulation.py:348-365): advances the pool
clock from the event, then distributes fee income to every position in
`valid_positions` (each getting one balance log entry), then records a
wallet snapshot. -/
def PoolSimiulation.on_swap (sim : PoolSimiulation) (ev : SwapEvent) :
    PoolSimiulation :=
  let former := sim.sqrt_price
  let newp : ℚ := (ev.sqrtPriceX96 : ℚ) / (2 : ℚ) ^ (96 : ℕ)
  let sim1 := { sim with
    sqrt_price_x96 := ev.sqrtPriceX96, tick := ev.tick,
    block_number := ev.blockNumber, L := ev.liquidity, sqrt_price := newp,
    timestamp := ev.timestamp }
  let store := sim.valid_positions.foldl
    (onSwapStep former newp ev.blockNumber ev.timestamp) sim1.positions
  ({ sim1 with positions := store }).record_wallet

/-- Outcome of `PoolSimiulation.swap`: the Python method either returns the
target amount, raises `ValueError("amount or pct")`, fails the balance
`assert`, or raises `ZeroDivisionError` inside the constant-product
formula. -/
inductive SwapOutcome where
  | ok (amount : ℤ)
  | valueError
  | assertFail
  | zeroDivError
deriving DecidableEq, Repr

/-- The traded-in amount used by `PoolSimiulation.swap`: the `amount`
argument if truthy, else `int(balance * pct)` if `pct` truthy. -/
def swapAmt (sim : PoolSimiulation) (in_token : Bool) (amount : ℤ) (pct : ℚ) : ℤ :=
  if amount ≠ 0 then amount
  else pyInt (((if in_token then sim.amount1 else sim.amount0) : ℤ) * pct)

/-- Source: `PoolSimiulation.swap` (simulation.py:367-409): the wallet's own trade
against the pool.  `ValueError` is raised only when both `amount` and
`pct` are falsy; a supplied `amount` short-circuits `pct`.  The fee-
inclusive debit is `int(amount*(fee/1e6+1))` and must be strictly below
the in-token balance. -/
def PoolSimiulation.swap (sim : PoolSimiulation) (in_token : Bool)
    (amount : ℤ) (pct : ℚ) : PoolSimiulation × SwapOutcome :=
  match in_token with
  | true =>
    match (if amount ≠ 0 then some amount
        else if pct ≠ 0 then some (pyInt ((sim.amount1 : ℚ) * pct)) else none) with
    | none => (sim, .valueError)
    | some amt =>
      let total := pyInt ((amt : ℚ) * ((sim.fee : ℚ) / 1000000 + 1))
      if sim.amount1 > total then
        match pydiv 1 sim.sqrt_price,
            pydiv sim.L (sim.L * sim.sqrt_price + (amt : ℚ)) with
        | some q1, some q2 =>
          let amount0 := pyInt (sim.L * (q1 - q2))
          ({ sim with
              amount0 := sim.amount0 + amount0,
              amount1 := sim.amount1 - total }, .ok amount0)
        | _, _ => (sim, .zeroDivError)
      else (sim, .assertFail)
  | false =>
    match (if amount ≠ 0 then some amount
        else if pct ≠ 0 then some (pyInt ((sim.amount0 : ℚ) * pct)) else none) with
    | none => (sim, .valueError)
    | some amt =>
      let total := pyInt ((amt : ℚ) * ((sim.fee : ℚ) / 1000000 + 1))
      if sim.amount0 > total then
        match pydiv sim.L sim.sqrt_price with
        | none => (sim, .zeroDivError)
        | some q0 =>
          match pydiv sim.L (q0 + (amt : ℚ)) with
          | none => (sim, .zeroDivError)
          | some q2 =>
            let amount1 := pyInt (sim.L * (sim.sqrt_price - q2))
            ({ sim with
                amount1 := sim.amount1 + amount1,
                amount0 := sim.amount0 - total }, .ok amount1)
      else (sim, .assertFail)

theorem alookup_aupdate_self (l : List (ℕ × PositionInstance)) (k : ℕ)
    (v v0 : PositionInstance) (h : alookup l k = some v0) :
    alookup (aupdate l k v) k = some v := by
  induction l with
  | nil => simp [alookup] at h
  | cons p tl ih =>
    rw [alookup] at h
    rw [aupdate, List.map_cons, alookup]
    by_cases hk : p.1 = k
    · simp [hk]
    · rw [if_neg hk] at h
      simp only [if_neg hk]
      exact ih h

theorem alookup_aupdate_ne (l : List (ℕ × PositionInstance)) (k k' : ℕ)
    (v : PositionInstance) (h : k ≠ k') :
    alookup (aupdate l k v) k' = alookup l k' := by
  induction l with
  | nil => simp [alookup, aupdate]
  | cons p tl ih =>
    rw [aupdate, List.map_cons, alookup, alookup]
    by_cases hk : p.1 = k
    · simp only [if_pos hk, hk]
      rw [if_neg h, if_neg (hk ▸ h)]
      exact ih
    · simp only [if_neg hk]
      by_cases hk' : p.1 = k'
      · rw [if_pos hk', if_pos hk']
      · rw [if_neg hk', if_neg hk']
        exact ih

/-- The invariant relating the cached `_amount0_edge`/`_amount1_edge`
fields to `liquidity`: they are exactly what `update_liquidity` computes.
It holds for every position the simulator ever constructs, since both the
constructor and every mutation go through `update_liquidity`. -/
def PositionInstance.EdgesConsistent (pos : PositionInstance) : Prop :=
  pos._amount0_edge =
    pyInt (pos.liquidity * (pos.low_price_sqrt_r - pos.high_price_sqrt_r)) ∧
  pos._amount1_edge =
    pyInt (pos.liquidity * (pos.high_price_sqrt - pos.low_price_sqrt))

instance (pos : PositionInstance) : Decidable pos.EdgesConsistent :=
  inferInstanceAs (Decidable (_ ∧ _))

theorem PositionInstance.update_liquidity_rollback {pos : PositionInstance}
    (h : pos.EdgesConsistent) (x : ℚ) :
    (pos.update_liquidity x).update_liquidity pos.liquidity = pos := by
  obtain ⟨h0, h1⟩ := h
  cases pos
  simp_all [PositionInstance.update_liquidity]

/-- C4: when `increase_liquidity` fails (in particular because the wallet
lacks the computed deposit amounts), the wallet balances are unchanged and
the targeted position is rolled back to exactly its prior state — the
liquidity mutation already applied to the `Position` does not survive. -/
theorem increase_liquidity_rollback (sim : PoolSimiulation) (tid : ℕ)
    (pos : PositionInstance) (a0 a1 : ℤ)
    (hfind : alookup sim.positions tid = some pos)
    (hwf : pos.EdgesConsistent)
    (hfail : (PoolSimiulation.increase_liquidity sim tid a0 a1).2 = none) :
    (PoolSimiulation.increase_liquidity sim tid a0 a1).1.amount0 = sim.amount0 ∧
    (PoolSimiulation.increase_liquidity sim tid a0 a1).1.amount1 = sim.amount1 ∧
    alookup (PoolSimiulation.increase_liquidity sim tid a0 a1).1.positions tid =
      some pos := by
  simp only [PoolSimiulation.increase_liquidity, hfind,
    PositionInstance.increase_liquidity] at hfail ⊢
  rcases hcal : PositionUtil.cal_liquidity_sqrt sim.sqrt_price
      pos.low_price_sqrt pos.high_price_sqrt a0 a1 with _ | ⟨lc, ac, bc⟩
  · simp [hcal, hfind]
  · simp only [hcal] at hfail ⊢
    by_cases hins : sim.amount0 <
        (pos.update_liquidity (pos.liquidity + (lc : ℚ))).amount0_psqrt
          sim.sqrt_price - pos.amount0_psqrt sim.sqrt_price ∨
        sim.amount1 <
        (pos.update_liquidity (pos.liquidity + (lc : ℚ))).amount1_psqrt
          sim.sqrt_price - pos.amount1_psqrt sim.sqrt_price
    · rw [if_pos hins]
      refine ⟨rfl, rfl, ?_⟩
      show alookup (aupdate sim.positions tid
        ((pos.update_liquidity (pos.liquidity + (lc : ℚ))).update_liquidity
          pos.liquidity)) tid = some pos
      rw [PositionInstance.update_liquidity_rollback hwf]
      exact alookup_aupdate_self _ _ _ _ hfind
    · rw [if_neg hins] at hfail
      simp at hfail

/-- A concrete registered position used by witness instantiations:
`√lower = 1`, `√upper = 2`, liquidity 10, with consistent cached edges. -/
def cpos : PositionInstance :=
  { liquidity := 10, tick_lower := -60, tick_upper := 60,
    low_price_sqrt := 1, low_price_sqrt_r := 1,
    high_price_sqrt := 2, high_price_sqrt_r := 1/2,
    _amount0_edge := 5, _amount1_edge := 10,
    fee_rate := 3000, fee0 := 7, fee1 := 11, token_id := 1,
    balance := [], history := [] }

/-- A concrete simulator state holding `cpos` under token id 1 with an empty
wallet, pool price `√p = 3/2`. -/
def csim4 : PoolSimiulation :=
  { decimal0 := 8, decimal1 := 18, amount0 := 0, amount1 := 0,
    positions := [(1, cpos)], valid_positions := [1], _next_token_id := 1,
    fee := 3000, tick := 0, sqrt_price_x96 := 0, sqrt_price := 3/2,
    block_number := 5, timestamp := 17, L := 1000, wallet_logs := [] }

/-- C4 witness: increasing liquidity of `cpos` by `(100, 100)` against an
empty wallet fails and leaves the position and wallet untouched. -/
theorem increase_liquidity_rollback_w :
    alookup csim4.positions 1 = some cpos ∧ cpos.EdgesConsistent ∧
    (PoolSimiulation.increase_liquidity csim4 1 100 100).2 = none ∧
    alookup (PoolSimiulation.increase_liquidity csim4 1 100 100).1.positions 1 =
      some cpos := by
  have h1 : alookup csim4.positions 1 = some cpos := by
    norm_num [csim4, alookup]
  have h2 : cpos.EdgesConsistent := by
    norm_num [cpos, PositionInstance.EdgesConsistent, pyInt]
  have h3 : (PoolSimiulation.increase_liquidity csim4 1 100 100).2 = none := by
    norm_num [PoolSimiulation.increase_liquidity, csim4, cpos, alookup,
      PositionInstance.increase_liquidity, PositionUtil.cal_liquidity_sqrt,
      pydiv, infLt, pyInt, PositionInstance.update_liquidity,
      PositionInstance.amount0_psqrt, PositionInstance.amount1_psqrt]
  exact ⟨h1, h2, h3, (increase_liquidity_rollback csim4 1 cpos 100 100 h1 h2 h3).2.2⟩

/-- C9: after `decrease_liquidity(token_id, pct=1)` the position reports
inactive at every price, its id is gone from `valid_positions`, and the
full registry still holds the (zero-liquidity) entry. -/
theorem decrease_all_deactivates (sim : PoolSimiulation) (tid : ℕ)
    (pos : PositionInstance)
    (hfind : alookup sim.positions tid = some pos)
    (hid : pos.token_id = tid) (hpos : 0 < pos.liquidity) :
    (PoolSimiulation.decrease_liquidity sim tid none 1).2 ≠ none ∧
    ∃ pos', alookup (PoolSimiulation.decrease_liquidity sim tid none 1).1.positions
        tid = some pos' ∧
      (∀ p : ℚ, pos'.is_active p = false) ∧
      tid ∉ (PoolSimiulation.decrease_liquidity sim tid none 1).1.valid_positions := by
  constructor
  · simp [PoolSimiulation.decrease_liquidity, hfind,
      PositionInstance.decrease_liquidity]
  · simp only [PoolSimiulation.decrease_liquidity, hfind,
      PositionInstance.decrease_liquidity, Option.getD_none, mul_one, sub_self,
      zero_lt_one, le_refl, and_self, if_true, eq_self_iff_true, one_ne_zero,
      and_false, if_false, ite_true, ite_false]
    refine ⟨_, alookup_aupdate_self _ _ _ _ hfind, ?_, ?_⟩
    · intro p
      simp [PositionInstance.is_active, PositionInstance.log_history,
        PositionInstance.update_liquidity]
    · simp [PoolSimiulation.record_wallet, PositionInstance.update_liquidity,
        hid, List.mem_filter]

/-- C9 witness: fully decreasing `cpos` inside `csim4`. -/
theorem decrease_all_deactivates_w :
    alookup csim4.positions 1 = some cpos ∧ cpos.token_id = 1 ∧
    (0 : ℚ) < cpos.liquidity ∧
    ((PoolSimiulation.decrease_liquidity csim4 1 none 1).2 ≠ none ∧
     ∃ pos', alookup (PoolSimiulation.decrease_liquidity csim4 1 none 1).1.positions
         1 = some pos' ∧
       (∀ p : ℚ, pos'.is_active p = false) ∧
       1 ∉ (PoolSimiulation.decrease_liquidity csim4 1 none 1).1.valid_positions) := by
  have h1 : alookup csim4.positions 1 = some cpos := by norm_num [csim4, alookup]
  have h2 : cpos.token_id = 1 := by norm_num [cpos]
  have h3 : (0 : ℚ) < cpos.liquidity := by norm_num [cpos]
  exact ⟨h1, h2, h3, decrease_all_deactivates csim4 1 cpos h1 h2 h3⟩

/-- Source: `PositionInstance.swap` only touches the fee counters: both logs are
unchanged. -/
theorem PositionInstance.swap_logs (pos : PositionInstance) (f n : ℚ) :
    (pos.swap f n).1.history = pos.history ∧
    (pos.swap f n).1.balance = pos.balance := by
  rw [PositionInstance.swap]; split <;> exact ⟨rfl, rfl⟩

/-- A successful `Position.increase_liquidity` leaves both logs unchanged
(it only goes through `update_liquidity`). -/
theorem PositionInstance.increase_logs {pos pos1 : PositionInstance} {sp : ℚ}
    {a0 a1 : ℤ} {l d0 d1 : ℤ}
    (h : pos.increase_liquidity sp a0 a1 = some (pos1, l, d0, d1)) :
    pos1.history = pos.history ∧ pos1.balance = pos.balance := by
  rw [PositionInstance.increase_liquidity] at h
  split at h
  · exact absurd h (by simp)
  · simp only [Option.some_inj, Prod.mk.injEq] at h
    obtain ⟨h1, -⟩ := h
    rw [← h1]
    exact ⟨rfl, rfl⟩

/-- A successful `Position.decrease_liquidity` leaves both logs unchanged. -/
theorem PositionInstance.decrease_logs {pos pos1 : PositionInstance} {sp : ℚ}
    {liq : Option ℚ} {pct l : ℚ} {d0 d1 : ℤ}
    (h : pos.decrease_liquidity sp liq pct = some (pos1, l, d0, d1)) :
    pos1.history = pos.history ∧ pos1.balance = pos.balance := by
  rw [PositionInstance.decrease_liquidity] at h
  split at h
  · exact absurd h (by simp)
  · split at h
    · exact absurd h (by simp)
    · simp only [Option.some_inj, Prod.mk.injEq] at h
      obtain ⟨h1, -⟩ := h
      rw [← h1]
      exact ⟨rfl, rfl⟩

theorem alookup_foldl_onSwapStep_not_mem (f n : ℚ) (b t : ℤ) (ids : List ℕ)
    (tid : ℕ) (h : tid ∉ ids) :
    ∀ store, alookup (ids.foldl (onSwapStep f n b t) store) tid =
      alookup store tid := by
  induction ids with
  | nil => intro store; rfl
  | cons k ks ih =>
    intro store
    have hk : k ≠ tid := by rintro rfl; exact h (List.mem_cons_self _ _)
    rw [List.foldl_cons, ih (fun hm => h (List.mem_cons_of_mem _ hm))]
    rw [onSwapStep]
    cases halk : alookup store k with
    | none => rfl
    | some q => exact alookup_aupdate_ne _ _ _ _ hk

theorem alookup_foldl_onSwapStep_mem (f n : ℚ) (b t : ℤ) (ids : List ℕ)
    (tid : ℕ) :
    ∀ store pos, ids.Nodup → tid ∈ ids → alookup store tid = some pos →
      alookup (ids.foldl (onSwapStep f n b t) store) tid =
        some ((pos.swap f n).1.log_balance b t n (pos.swap f n).2.1
          (pos.swap f n).2.2) := by
  induction ids with
  | nil => intro _ _ _ hmem _; cases hmem
  | cons k ks ih =>
    intro store pos hnd hmem h
    rw [List.foldl_cons]
    rcases List.mem_cons.1 hmem with rfl | hmem'
    · have hnotin : tid ∉ ks := (List.nodup_cons.1 hnd).1
      rw [alookup_foldl_onSwapStep_not_mem _ _ _ _ _ _ hnotin]
      rw [onSwapStep, h]
      exact alookup_aupdate_self _ _ _ _ h
    · have hk : k ≠ tid := by
        rintro rfl; exact (List.nodup_cons.1 hnd).1 hmem'
      have hstep : alookup (onSwapStep f n b t store k) tid = some pos := by
        rw [onSwapStep]
        cases halk : alookup store k with
        | none => exact h
        | some q => exact (alookup_aupdate_ne _ _ _ _ hk).trans h
      exact ih _ _ (List.nodup_cons.1 hnd).2 hmem' hstep

/-- C8 counterexample: a successful `decrease_liquidity` appends a history
entry but **no** balance entry — starting from empty logs the position ends
with `history.length = 1` and `balance.length = 0`, refuting the claim that
every state-changing operation appends exactly one entry to each log. -/
theorem decrease_liquidity_log_counts :
    (PoolSimiulation.decrease_liquidity csim4 1 none 1).2 ≠ none ∧
    (alookup (PoolSimiulation.decrease_liquidity csim4 1 none 1).1.positions
        1).map (fun p => (p.history.length, p.balance.length)) = some (1, 0) := by
  constructor
  · intro h
    norm_num [PoolSimiulation.decrease_liquidity, csim4, cpos, alookup, aupdate,
      PositionInstance.decrease_liquidity, PositionInstance.update_liquidity,
      PositionInstance.amount0_psqrt, PositionInstance.amount1_psqrt, pyInt,
      PositionInstance.log_history, PoolSimiulation.record_wallet] at h
    exact Option.noConfusion h
  · norm_num [PoolSimiulation.decrease_liquidity, csim4, cpos, alookup, aupdate,
      PositionInstance.decrease_liquidity, PositionInstance.update_liquidity,
      PositionInstance.amount0_psqrt, PositionInstance.amount1_psqrt, pyInt,
      PositionInstance.log_history, PoolSimiulation.record_wallet]

/-- C8 (amended): per operation, the actual log appends are — `mint` and
`increase_liquidity`: one history and one balance entry; `decrease_liquidity`:
one history entry and no balance entry; `collect`: one balance entry and no
history entry; `on_swap`: one balance entry and no history entry for every
active position.  The two series are therefore not in lockstep. -/
theorem log_append_per_operation (sim : PoolSimiulation) (tid : ℕ)
    (pos : PositionInstance)
    (hfind : alookup sim.positions tid = some pos)
    (hnd : sim.valid_positions.Nodup) :
    (∀ lo hi a0 a1 p r0 r1,
      (PoolSimiulation.mint sim lo hi a0 a1).2 = some (p, r0, r1) →
        p.history.length = 1 ∧ p.balance.length = 1) ∧
    (∀ a0 a1 p r0 r1,
      (PoolSimiulation.increase_liquidity sim tid a0 a1).2 = some (p, r0, r1) →
      ∃ pos', alookup (PoolSimiulation.increase_liquidity sim tid
          a0 a1).1.positions tid = some pos' ∧
        pos'.history.length = pos.history.length + 1 ∧
        pos'.balance.length = pos.balance.length + 1) ∧
    (∀ liq pct p r0 r1,
      (PoolSimiulation.decrease_liquidity sim tid liq pct).2 = some (p, r0, r1) →
      ∃ pos', alookup (PoolSimiulation.decrease_liquidity sim tid
          liq pct).1.positions tid = some pos' ∧
        pos'.history.length = pos.history.length + 1 ∧
        pos'.balance.length = pos.balance.length) ∧
    (∃ pos', alookup (PoolSimiulation.collect sim tid).1.positions tid =
        some pos' ∧
      pos'.history.length = pos.history.length ∧
      pos'.balance.length = pos.balance.length + 1) ∧
    (∀ ev, tid ∈ sim.valid_positions →
      ∃ pos', alookup (PoolSimiulation.on_swap sim ev).positions tid =
          some pos' ∧
        pos'.history.length = pos.history.length ∧
        pos'.balance.length = pos.balance.length + 1) := by
  refine ⟨?_, ?_, ?_, ?_, ?_⟩
  · -- mint
    intro lo hi a0 a1 p r0 r1 hm
    by_cases hins : sim.amount0 < a0 ∨ sim.amount1 < a1
    · simp [PoolSimiulation.mint, if_pos hins] at hm
    · rcases hcal : PositionUtil.cal_liquidity_sqrt sim.sqrt_price
          (pow10001 ((lo - lo % 60) / 2)) (pow10001 ((hi - hi % 60) / 2))
          a0 a1 with _ | ⟨l, ac, bc⟩
      · simp [PoolSimiulation.mint, if_neg hins, hcal] at hm
      · rcases hmk : PositionInstance.mkNew (l : ℚ) (lo - lo % 60)
            (hi - hi % 60) sim.fee (sim._next_token_id + 1) with _ | position
        · simp [PoolSimiulation.mint, if_neg hins, hcal, hmk] at hm
        · simp only [PoolSimiulation.mint, if_neg hins, hcal, hmk,
            Option.some_inj, Prod.mk.injEq] at hm
          obtain ⟨hp, -⟩ := hm
          have hlogs : position.history = [] ∧ position.balance = [] := by
            rw [PositionInstance.mkNew] at hmk
            split at hmk
            · simp only [Option.some_inj] at hmk
              rw [← hmk]
              exact ⟨rfl, rfl⟩
            · simp at hmk
          rw [← hp]
          simp [PositionInstance.log_history, PositionInstance.log_balance,
            hlogs.1, hlogs.2]
  · -- increase_liquidity
    intro a0 a1 p r0 r1 hm
    rcases hinc : pos.increase_liquidity sim.sqrt_price a0 a1
        with _ | ⟨pos1, l, d0, d1⟩
    · simp [PoolSimiulation.increase_liquidity, hfind, hinc] at hm
    · by_cases hins : sim.amount0 < d0 ∨ sim.amount1 < d1
      · simp [PoolSimiulation.increase_liquidity, hfind, hinc,
          if_pos hins] at hm
      · simp only [PoolSimiulation.increase_liquidity, hfind, hinc,
          if_neg hins] at hm ⊢
        refine ⟨_, alookup_aupdate_self _ _ _ _ hfind, ?_, ?_⟩ <;>
          simp [PositionInstance.log_history, PositionInstance.log_balance,
            (PositionInstance.increase_logs hinc).1,
            (PositionInstance.increase_logs hinc).2]
  · -- decrease_liquidity
    intro liq pct p r0 r1 hm
    rcases hdec : pos.decrease_liquidity sim.sqrt_price liq pct
        with _ | ⟨pos1, l, d0, d1⟩
    · simp [PoolSimiulation.decrease_liquidity, hfind, hdec] at hm
    · simp only [PoolSimiulation.decrease_liquidity, hfind, hdec] at hm ⊢
      refine ⟨_, alookup_aupdate_self _ _ _ _ hfind, ?_, ?_⟩ <;>
        simp [PositionInstance.log_history,
          (PositionInstance.decrease_logs hdec).1,
          (PositionInstance.decrease_logs hdec).2]
  · -- collect
    simp only [PoolSimiulation.collect, hfind]
    refine ⟨_, alookup_aupdate_self _ _ _ _ hfind, ?_, ?_⟩ <;>
      simp [PositionInstance.collect, PositionInstance.log_balance]
  · -- on_swap
    intro ev hmem
    simp only [PoolSimiulation.on_swap, PoolSimiulation.record_wallet]
    refine ⟨_, alookup_foldl_onSwapStep_mem _ _ _ _ _ _ _ _ hnd hmem hfind,
      ?_, ?_⟩
    · simp [PositionInstance.log_balance, (PositionInstance.swap_logs pos _ _).1]
    · simp [PositionInstance.log_balance, (PositionInstance.swap_logs pos _ _).2]

/-- C8 witness: applying the per-operation log accounting to `collect` on
the concrete state `csim4`. -/
theorem log_append_per_operation_w :
    alookup csim4.positions 1 = some cpos ∧ csim4.valid_positions.Nodup ∧
    (∃ pos', alookup (PoolSimiulation.collect csim4 1).1.positions 1 =
        some pos' ∧
      pos'.history.length = cpos.history.length ∧
      pos'.balance.length = cpos.balance.length + 1) := by
  have h1 : alookup csim4.positions 1 = some cpos := by norm_num [csim4, alookup]
  have h2 : csim4.valid_positions.Nodup := by simp [csim4]
  exact ⟨h1, h2, (log_append_per_operation csim4 1 cpos h1 h2).2.2.2.1⟩

/-- The C3 failing input: a fresh simulator with wallet `(0, 1000000)`
initialised at `sqrtPriceX96 = 2^96` (so `sqrt_price = 1`, inside the
aligned tick range `[-60, 60]`). -/
def csim3 : PoolSimiulation :=
  PoolSimiulation.init (PoolSimiulation.mkNew 0 1000000 8 18 3000)
    ⟨2 ^ 96, 0, 12376891, 1000000, 1620252901⟩

/-- C3 (code bug): `mint` checks the wallet against the caller-requested
amounts `(0, 1000000)` — which pass — but then debits the recomputed owed
amounts, driving `amount0` to `-999999 < 0`.  The committed wallet balance
is negative, violating the never-negative wallet invariant the spec states
and the `assert`s in `mint` clearly intend to enforce. -/
theorem mint_drives_wallet_negative :
    csim3.amount0 = 0 ∧ csim3.amount1 = 1000000 ∧
    (PoolSimiulation.mint csim3 (-60) 60 0 1000000).1.amount0 = -999999 := by
  refine ⟨rfl, rfl, ?_⟩
  norm_num [csim3, PoolSimiulation.mkNew, PoolSimiulation.init,
    PoolSimiulation.mint, PositionUtil.cal_liquidity_sqrt, pydiv, infLt, pyInt,
    pow10001, PositionInstance.mkNew, PositionInstance.update_liquidity,
    PositionInstance.amount0_psqrt, PositionInstance.amount1_psqrt,
    PositionInstance.log_history, PositionInstance.log_balance,
    PoolSimiulation.record_wallet]

/-- Wallet-only simulator state for the `swap` claims: balances `(100, 100)`,
pool price `√p = 1`, pool liquidity `L = 10`, fee tier 3000. -/
def csim7 : PoolSimiulation :=
  { PoolSimiulation.mkNew 100 100 8 18 3000 with sqrt_price := 1, L := 10 }

/-- C7 counterexample: supplying **both** `amount` and `pct` does not raise
the invalid-argument error — the trade executes using `amount`
(`swap(0, amount=5, pct=1/2)` returns 3), refuting "fails when both are
given". -/
theorem swap_both_args_no_error :
    (PoolSimiulation.swap csim7 false 5 (1/2)).2 = SwapOutcome.ok 3 := by
  norm_num [csim7, PoolSimiulation.mkNew, PoolSimiulation.swap, pydiv, pyInt]

/-- C7 (amended): `swap` raises the invalid-argument `ValueError` exactly
when *neither* `amount` nor `pct` is supplied (both falsy); when both are
given, `amount` silently takes precedence (`pct` is ignored); whenever the
trade executes, the in-token balance is debited by the truncated
fee-inclusive total `int(amount*(fee/1e6+1))`. -/
theorem swap_arg_validation (sim : PoolSimiulation) (t : Bool) (a : ℤ) (p : ℚ) :
    ((PoolSimiulation.swap sim t a p).2 = SwapOutcome.valueError ↔
      a = 0 ∧ p = 0) ∧
    (a ≠ 0 → PoolSimiulation.swap sim t a p = PoolSimiulation.swap sim t a 0) ∧
    (∀ r, (PoolSimiulation.swap sim t a p).2 = SwapOutcome.ok r →
      (if t then (PoolSimiulation.swap sim t a p).1.amount1 =
          sim.amount1 -
            pyInt ((swapAmt sim t a p : ℚ) * ((sim.fee : ℚ) / 1000000 + 1))
       else (PoolSimiulation.swap sim t a p).1.amount0 =
          sim.amount0 -
            pyInt ((swapAmt sim t a p : ℚ) * ((sim.fee : ℚ) / 1000000 + 1)))) := by
  refine ⟨?_, ?_, ?_⟩
  · by_cases ha : a = 0 <;> by_cases hp : p = 0
    · cases t <;> simp [PoolSimiulation.swap, ha, hp]
    all_goals
      cases t <;>
        · simp only [PoolSimiulation.swap, ha, hp, ne_eq, not_true_eq_false,
            not_false_eq_true, ite_true, ite_false, and_false, false_and,
            and_true, true_and, iff_false]
          split <;>
            first
              | simp
              | (split <;>
                  first
                    | simp
                    | (split <;> simp))
  · intro ha
    cases t <;> simp [PoolSimiulation.swap, ha]
  · intro r hok
    revert hok
    cases t <;> by_cases ha : a = 0 <;> by_cases hp : p = 0 <;>
      simp only [PoolSimiulation.swap, swapAmt, ha, hp, ne_eq,
        not_true_eq_false, not_false_eq_true, ite_true, ite_false] <;>
      (repeat' split) <;>
      intro hok <;>
      first
        | (simp at hok; done)
        | (simp; done)
        | simp_all

/-- C7 witness: with neither `amount` nor `pct`, `swap` raises the
invalid-argument error. -/
theorem swap_arg_validation_w :
    (PoolSimiulation.swap csim7 true 0 0).2 = SwapOutcome.valueError :=
  (swap_arg_validation csim7 true 0 0).1.mpr ⟨rfl, rfl⟩

/-! ## The `run` merge loop (simulation.py:417-464) -/

/-- A handler invocation made by `run`: `on_swap` or `on_time` at an event's
timestamp. -/
inductive Dispatch where
  | onSwap (timestamp : ℤ)
  | onTime (timestamp : ℤ)
deriving DecidableEq, Repr

def Dispatch.ts : Dispatch → ℤ
  | onSwap t => t
  | onTime t => t

def Dispatch.isSwap : Dispatch → Bool
  | onSwap _ => true
  | onTime _ => false

/-- Python tuple comparison `(ts, pri) <= (ts', pri')` (lexicographic), as
used in `run`'s merge condition `(swap["timestamp"], 1) <= (data["timestamp"], 0)`. -/
def tupleLe (a b : ℤ × ℕ) : Bool :=
  decide (a.1 < b.1 ∨ (a.1 = b.1 ∧ a.2 ≤ b.2))

/-- The `while True` merge loop of `run` with one swap event and one
decision event already pulled from the iterators.  When one iterator is
exhausted, the other is drained with `__length_hint__` — note the event
held in the local variable of the exhausted side is dropped, exactly as in
the source. -/
def runLoop (swap data : ℤ) (swaps times : List ℤ) : List Dispatch :=
  if tupleLe (swap, 1) (data, 0) then
    Dispatch.onSwap swap ::
      (match swaps with
       | s :: ss => runLoop s data ss times
       | [] => times.map Dispatch.onTime)
  else
    Dispatch.onTime data ::
      (match times with
       | d :: ds => runLoop swap d swaps ds
       | [] => swaps.map Dispatch.onSwap)
termination_by swaps.length + times.length
decreasing_by
  · simp [List.length_cons]
  · simp [List.length_cons]

/-- Source: `PoolSimiulation.run(swaps, time_data)` (simulation.py:417-464), as the
sequence of handler invocations it performs; events are represented by
their timestamps.  An empty input stream makes the initial `next()` raise
`StopIteration` out of `run` before any dispatch. -/
def PoolSimiulation.run (swaps times : List ℤ) : List Dispatch :=
  match swaps, times with
  | s :: ss, d :: ds => runLoop s d ss ds
  | _, _ => []

theorem tupleLe_swap_data (s d : ℤ) : tupleLe (s, 1) (d, 0) = true ↔ s < d := by
  simp [tupleLe]

/-- The ordering relation every dispatch pair of a `run` trace satisfies:
timestamps are non-decreasing, and an `on_swap` invocation is never
followed by an `on_time` invocation at the same timestamp (a swap is
dispatched only when strictly earlier than every pending decision). -/
def DispatchR (x y : Dispatch) : Prop :=
  x.ts ≤ y.ts ∧ (x.isSwap = true → y.isSwap = false → x.ts < y.ts)

theorem runLoop_bounds (s d : ℤ) (ss ds : List ℤ) :
    List.Sorted (· ≤ ·) (s :: ss) → List.Sorted (· ≤ ·) (d :: ds) →
    ∀ x ∈ runLoop s d ss ds,
      (x.isSwap = true → s ≤ x.ts) ∧ (x.isSwap = false → d ≤ x.ts) := by
  induction s, d, ss, ds using runLoop.induct with
  | case1 s d ss ds hcond hmatch =>
    intro hs ht x hx
    rw [runLoop.eq_def, if_pos hcond] at hx
    rcases List.mem_cons.1 hx with rfl | hx'
    · simp [Dispatch.isSwap, Dispatch.ts]
    · cases ss with
      | nil =>
        obtain ⟨t, hts, rfl⟩ := List.mem_map.1 hx'
        exact ⟨by simp [Dispatch.isSwap], fun _ => by
          simpa [Dispatch.ts] using (List.sorted_cons.1 ht).1 t hts⟩
      | cons s' ss' =>
        have ih := hmatch hs.of_cons ht x hx'
        have hss' : s ≤ s' := (List.sorted_cons.1 hs).1 s' (List.mem_cons_self _ _)
        exact ⟨fun hsw => le_trans hss' (ih.1 hsw), ih.2⟩
  | case2 s d ss ds hcond hmatch =>
    intro hs ht x hx
    rw [runLoop.eq_def, if_neg hcond] at hx
    rcases List.mem_cons.1 hx with rfl | hx'
    · simp [Dispatch.isSwap, Dispatch.ts]
    · cases ds with
      | nil =>
        obtain ⟨t, hts, rfl⟩ := List.mem_map.1 hx'
        exact ⟨fun _ => by
          simpa [Dispatch.ts] using (List.sorted_cons.1 hs).1 t hts,
          by simp [Dispatch.isSwap]⟩
      | cons d' ds' =>
        have ih := hmatch hs ht.of_cons x hx'
        have hdd' : d ≤ d' := (List.sorted_cons.1 ht).1 d' (List.mem_cons_self _ _)
        exact ⟨ih.1, fun htm => le_trans hdd' (ih.2 htm)⟩

theorem runLoop_pairwise (s d : ℤ) (ss ds : List ℤ) :
    List.Sorted (· ≤ ·) (s :: ss) → List.Sorted (· ≤ ·) (d :: ds) →
    List.Pairwise DispatchR (runLoop s d ss ds) := by
  induction s, d, ss, ds using runLoop.induct with
  | case1 s d ss ds hcond hmatch =>
    intro hs ht
    have hsd : s < d := (tupleLe_swap_data s d).1 hcond
    rw [runLoop.eq_def, if_pos hcond]
    refine List.pairwise_cons.2 ⟨?_, ?_⟩
    · intro y hy
      cases ss with
      | nil =>
        obtain ⟨t, hts, rfl⟩ := List.mem_map.1 hy
        have hdt : d ≤ t := (List.sorted_cons.1 ht).1 t hts
        exact ⟨by simpa [Dispatch.ts] using (hsd.trans_le hdt).le,
          fun _ _ => by simpa [Dispatch.ts] using hsd.trans_le hdt⟩
      | cons s' ss' =>
        have hb := runLoop_bounds s' d ss' ds hs.of_cons ht y hy
        have hss' : s ≤ s' := (List.sorted_cons.1 hs).1 s' (List.mem_cons_self _ _)
        cases hysw : y.isSwap with
        | false =>
          have hyd := hb.2 hysw
          exact ⟨by simpa [Dispatch.ts] using (hsd.trans_le hyd).le,
            fun _ _ => by simpa [Dispatch.ts] using hsd.trans_le hyd⟩
        | true =>
          have hys := hb.1 hysw
          refine ⟨by simpa [Dispatch.ts] using hss'.trans hys, fun _ hf => ?_⟩
          rw [hysw] at hf
          exact absurd hf (by simp)
    · cases ss with
      | nil =>
        exact List.Pairwise.map _
          (fun a b hab => ⟨by simpa [Dispatch.ts] using hab,
            fun habs _ => by simp [Dispatch.isSwap] at habs⟩) ht.of_cons
      | cons s' ss' => exact hmatch hs.of_cons ht
  | case2 s d ss ds hcond hmatch =>
    intro hs ht
    have hds : d ≤ s := not_lt.1 (fun h => hcond ((tupleLe_swap_data s d).2 h))
    rw [runLoop.eq_def, if_neg hcond]
    refine List.pairwise_cons.2 ⟨?_, ?_⟩
    · intro y hy
      cases ds with
      | nil =>
        obtain ⟨t, hts, rfl⟩ := List.mem_map.1 hy
        have hst : s ≤ t := (List.sorted_cons.1 hs).1 t hts
        exact ⟨by simpa [Dispatch.ts] using hds.trans hst,
          fun habs _ => by simp [Dispatch.isSwap] at habs⟩
      | cons d' ds' =>
        have hb := runLoop_bounds s d' ss ds' hs ht.of_cons y hy
        have hdd' : d ≤ d' := (List.sorted_cons.1 ht).1 d' (List.mem_cons_self _ _)
        cases hysw : y.isSwap with
        | false =>
          have hyd := hb.2 hysw
          exact ⟨by simpa [Dispatch.ts] using hdd'.trans hyd,
            fun habs _ => by simp [Dispatch.isSwap] at habs⟩
        | true =>
          have hys := hb.1 hysw
          exact ⟨by simpa [Dispatch.ts] using hds.trans hys,
            fun habs _ => by simp [Dispatch.isSwap] at habs⟩
    · cases ds with
      | nil =>
        exact List.Pairwise.map _
          (fun a b hab => ⟨by simpa [Dispatch.ts] using hab,
            fun _ hf => by simp [Dispatch.isSwap] at hf⟩) hs.of_cons
      | cons d' ds' => exact hmatch hs ht.of_cons

/-- C2 counterexample: a swap event and a decision event at the same
timestamp 5.  The claimed order is `on_swap` before `on_time`; the code
invokes `on_time` first and, the swap stream's held event being orphaned
when the decision stream exhausts, never invokes `on_swap` at all. -/
theorem run_tie_dispatches_time_first :
    PoolSimiulation.run [5] [5] = [Dispatch.onTime 5] := by
  rw [PoolSimiulation.run]
  rw [runLoop.eq_def]
  norm_num [tupleLe]

/-- C2 (amended): for pre-sorted input streams every pair of handler
invocations made by `run` is ordered: timestamps are non-decreasing, and at
equal timestamps `on_time` (the decision event) is dispatched before
`on_swap` — the opposite tie-break of the claim; moreover the pending held
event of one stream is dropped when the other exhausts, so a same-timestamp
swap may not be dispatched at all. -/
theorem run_dispatch_ordering (swaps times : List ℤ)
    (hs : List.Sorted (· ≤ ·) swaps) (ht : List.Sorted (· ≤ ·) times) :
    List.Pairwise DispatchR (PoolSimiulation.run swaps times) := by
  match swaps, times with
  | [], _ => exact List.Pairwise.nil
  | s :: ss, [] => exact List.Pairwise.nil
  | s :: ss, d :: ds => exact runLoop_pairwise s d ss ds hs ht

/-- C2 witness: sorted streams `[1, 5]` and `[5]`. -/
theorem run_dispatch_ordering_w :
    List.Sorted (· ≤ ·) [(1 : ℤ), 5] ∧ List.Sorted (· ≤ ·) [(5 : ℤ)] ∧
    List.Pairwise DispatchR (PoolSimiulation.run [1, 5] [5]) :=
  ⟨by simp, by simp,
    run_dispatch_ordering [1, 5] [5] (by simp) (by simp)⟩

/-! ## `PriceConverter` (utils.py:430-485), over `ℝ` because
`price_to_tick` calls `math.log`. -/

structure PriceConverter where
  decimal0 : ℤ
  decimal1 : ℤ

/-- Source: `self.factor = 10**(decimal1 - decimal0)` (utils.py:457). -/
noncomputable def PriceConverter.factor (pc : PriceConverter) : ℝ :=
  (10 : ℝ) ^ (pc.decimal1 - pc.decimal0)

/-- Source: `PriceConverter.price_to_dex` (utils.py:471-475). -/
noncomputable def PriceConverter.price_to_dex (pc : PriceConverter)
    (price : ℝ) (reverse : Bool) : ℝ :=
  if !reverse then price * pc.factor else pc.factor / price

/-- Python `int(x)` on a float, truncation toward zero, over `ℝ`. -/
noncomputable def pyIntR (x : ℝ) : ℤ := if x < 0 then -⌊-x⌋ else ⌊x⌋

/-- Source: `PriceConverter.price_to_tick` (utils.py:477-478):
`int(math.log(price_to_dex(price, reverse), 1.0001))`. -/
noncomputable def PriceConverter.price_to_tick (pc : PriceConverter)
    (price : ℝ) (reverse : Bool) : ℤ :=
  pyIntR (Real.logb 1.0001 (pc.price_to_dex price reverse))

/-- C5 counterexample: at `price = √1.0001` with `reverse = true` (and equal
decimals), the dex price is `1.0001^(-1/2)`, whose base-1.0001 logarithm is
`-1/2`.  `price_to_tick` truncates toward zero and returns `0`, while the
floor of the logarithm is `-1`. -/
theorem price_to_tick_not_floor :
    (PriceConverter.mk 0 0).price_to_tick (Real.sqrt 1.0001) true = 0 ∧
    ⌊Real.logb 1.0001
      ((PriceConverter.mk 0 0).price_to_dex (Real.sqrt 1.0001) true)⌋ = -1 := by
  have hfac : (PriceConverter.mk 0 0).factor = 1 := by
    simp [PriceConverter.factor]
  have hdex : (PriceConverter.mk 0 0).price_to_dex (Real.sqrt 1.0001) true =
      (1.0001 : ℝ) ^ (-(1 / 2) : ℝ) := by
    rw [PriceConverter.price_to_dex]
    rw [if_neg (by simp)]
    rw [hfac, Real.sqrt_eq_rpow, Real.rpow_neg (by norm_num : (0:ℝ) ≤ 1.0001)]
    norm_num
  have hlog : Real.logb 1.0001
      ((PriceConverter.mk 0 0).price_to_dex (Real.sqrt 1.0001) true) =
      -(1 / 2 : ℝ) := by
    rw [hdex, Real.logb_rpow (by norm_num) (by norm_num)]
  constructor
  · rw [PriceConverter.price_to_tick, hlog, pyIntR, if_pos (by norm_num)]
    norm_num
  · rw [hlog]
    norm_num [Int.floor_eq_iff, show ((-1 : ℤ) : ℝ) = -1 from by norm_num]

/-- Characterization of the truncated base-1.0001 logarithm. -/
theorem trunc_log_char (D : ℝ) (h : 0 < D) :
    (1 ≤ D → (1.0001 : ℝ) ^ (pyIntR (Real.logb 1.0001 D)) ≤ D ∧
      D < (1.0001 : ℝ) ^ (pyIntR (Real.logb 1.0001 D) + 1)) ∧
    (D < 1 → (1.0001 : ℝ) ^ (pyIntR (Real.logb 1.0001 D) - 1) < D ∧
      D ≤ (1.0001 : ℝ) ^ (pyIntR (Real.logb 1.0001 D))) := by
  have hb1 : (1 : ℝ) < 1.0001 := by norm_num
  have hD : (1.0001 : ℝ) ^ Real.logb 1.0001 D = D :=
    Real.rpow_logb (by norm_num) (by norm_num) h
  constructor
  · intro h1
    have hx : 0 ≤ Real.logb 1.0001 D := Real.logb_nonneg hb1 h1
    have ht : pyIntR (Real.logb 1.0001 D) = ⌊Real.logb 1.0001 D⌋ := by
      rw [pyIntR, if_neg (not_lt.2 hx)]
    rw [ht]
    constructor
    · calc (1.0001 : ℝ) ^ ⌊Real.logb 1.0001 D⌋
          = (1.0001 : ℝ) ^ ((⌊Real.logb 1.0001 D⌋ : ℤ) : ℝ) :=
            (Real.rpow_intCast _ _).symm
        _ ≤ (1.0001 : ℝ) ^ Real.logb 1.0001 D :=
            (Real.rpow_le_rpow_left_iff hb1).2 (Int.floor_le _)
        _ = D := hD
    · calc D = (1.0001 : ℝ) ^ Real.logb 1.0001 D := hD.symm
        _ < (1.0001 : ℝ) ^ ((⌊Real.logb 1.0001 D⌋ + 1 : ℤ) : ℝ) := by
            refine (Real.rpow_lt_rpow_left_iff hb1).2 ?_
            push_cast
            exact Int.lt_floor_add_one _
        _ = (1.0001 : ℝ) ^ (⌊Real.logb 1.0001 D⌋ + 1) := Real.rpow_intCast _ _
  · intro h1
    have hx : Real.logb 1.0001 D < 0 := Real.logb_neg hb1 h h1
    have ht : pyIntR (Real.logb 1.0001 D) = ⌈Real.logb 1.0001 D⌉ := by
      rw [pyIntR, if_pos hx, Int.floor_neg, neg_neg]
    rw [ht]
    constructor
    · calc (1.0001 : ℝ) ^ (⌈Real.logb 1.0001 D⌉ - 1)
          = (1.0001 : ℝ) ^ ((⌈Real.logb 1.0001 D⌉ - 1 : ℤ) : ℝ) :=
            (Real.rpow_intCast _ _).symm
        _ < (1.0001 : ℝ) ^ Real.logb 1.0001 D := by
            refine (Real.rpow_lt_rpow_left_iff hb1).2 ?_
            push_cast
            have := Int.ceil_lt_add_one (Real.logb 1.0001 D)
            linarith
        _ = D := hD
    · calc D = (1.0001 : ℝ) ^ Real.logb 1.0001 D := hD.symm
        _ ≤ (1.0001 : ℝ) ^ ((⌈Real.logb 1.0001 D⌉ : ℤ) : ℝ) :=
            (Real.rpow_le_rpow_left_iff hb1).2 (Int.le_ceil _)
        _ = (1.0001 : ℝ) ^ ⌈Real.logb 1.0001 D⌉ := Real.rpow_intCast _ _

/-- C5 (amended): `price_to_tick` is the base-1.0001 logarithm of the dex
price truncated toward zero (`int()`), not floored: its result `t` is
characterized by `1.0001^t ≤ dex < 1.0001^(t+1)` when `dex ≥ 1` (where it
agrees with the floor) and by `1.0001^(t-1) < dex ≤ 1.0001^t` when
`dex < 1` (the ceiling of the logarithm, one above the floor whenever the
logarithm is not an integer). -/
theorem price_to_tick_trunc_char (pc : PriceConverter) (price : ℝ)
    (reverse : Bool) (h : 0 < pc.price_to_dex price reverse) :
    (1 ≤ pc.price_to_dex price reverse →
      (1.0001 : ℝ) ^ (pc.price_to_tick price reverse) ≤
          pc.price_to_dex price reverse ∧
        pc.price_to_dex price reverse <
          (1.0001 : ℝ) ^ (pc.price_to_tick price reverse + 1)) ∧
    (pc.price_to_dex price reverse < 1 →
      (1.0001 : ℝ) ^ (pc.price_to_tick price reverse - 1) <
          pc.price_to_dex price reverse ∧
        pc.price_to_dex price reverse ≤
          (1.0001 : ℝ) ^ (pc.price_to_tick price reverse)) :=
  trunc_log_char (pc.price_to_dex price reverse) h

/-- C5 witness: `price = 1.0001` with equal decimals, dex price `1.0001 ≥ 1`. -/
theorem price_to_tick_trunc_char_w :
    (0 : ℝ) < (PriceConverter.mk 0 0).price_to_dex 1.0001 false ∧
    ((1 ≤ (PriceConverter.mk 0 0).price_to_dex 1.0001 false →
      (1.0001 : ℝ) ^ ((PriceConverter.mk 0 0).price_to_tick 1.0001 false) ≤
          (PriceConverter.mk 0 0).price_to_dex 1.0001 false ∧
        (PriceConverter.mk 0 0).price_to_dex 1.0001 false <
          (1.0001 : ℝ) ^ ((PriceConverter.mk 0 0).price_to_tick 1.0001 false + 1)) ∧
    ((PriceConverter.mk 0 0).price_to_dex 1.0001 false < 1 →
      (1.0001 : ℝ) ^ ((PriceConverter.mk 0 0).price_to_tick 1.0001 false - 1) <
          (PriceConverter.mk 0 0).price_to_dex 1.0001 false ∧
        (PriceConverter.mk 0 0).price_to_dex 1.0001 false ≤
          (1.0001 : ℝ) ^ ((PriceConverter.mk 0 0).price_to_tick 1.0001 false))) := by
  have h : (0 : ℝ) < (PriceConverter.mk 0 0).price_to_dex 1.0001 false := by
    norm_num [PriceConverter.price_to_dex, PriceConverter.factor]
  exact ⟨h, price_to_tick_trunc_char (PriceConverter.mk 0 0) 1.0001 false h⟩
